import Mathlib

/-!
Verification of the tcmonitor-ebpf monitor (src/main.go) against its
natural-language specification.

The development shallowly embeds the Go program:
* `tcKeys` / `tcKeyOrder` embed the package-level key table and canonical
  display order (main.go lines 21-34);
* `getFuncName` embeds the symbol resolver (lines 36-61), with the results of
  the external `Program.Info` / `Info.Instructions` calls supplied as data;
* `lookupAndPrintStats` embeds the poll/rate step (lines 63-83): the kernel
  counter table is a partial map `Nat → Option Nat` (`none` = lookup error),
  the `prevValues` Go map is a total function (Go maps read as 0 on missing
  keys), timestamps are rationals in seconds, and the printed lines form the
  returned `snapshot`;
* `mainRun` embeds `main`'s control flow (lines 85-156) as a trace of external
  events plus process exit code, with Go semantics for `defer`/`log.Fatalf`:
  `log.Fatalf` calls `os.Exit(1)`, which terminates without running deferred
  functions, while the normal `return` runs deferred calls in LIFO order.

Go's `uint64` arithmetic is embedded as `Nat` arithmetic modulo `2 ^ 64`, and
`float64` rate values as rationals.
-/

namespace TCMonitor

/-- Modulus of Go's `uint64`. -/
def U64MOD : Nat := 2 ^ 64

/-- Go `uint64` subtraction `a - b` (wrapping), for operands below `2 ^ 64`. -/
def u64sub (a b : Nat) : Nat := (a + U64MOD - b) % U64MOD

/-- The package-level `tcKeys` map (main.go lines 22-32).  Go map reads
return the zero value `0` for absent keys. -/
def tcKeys : String → Nat := fun s =>
  if s = "TC_ACT_OK" then 0
  else if s = "TC_ACT_RECLASSIFY" then 1
  else if s = "TC_ACT_SHOT" then 2
  else if s = "TC_ACT_PIPE" then 3
  else if s = "TC_ACT_STOLEN" then 4
  else if s = "TC_ACT_QUEUED" then 5
  else if s = "TC_ACT_REPEAT" then 6
  else if s = "TC_ACT_REDIRECT" then 7
  else if s = "TC_ACT_TRAP" then 8
  else 0

/-- The canonical display order `tcKeyOrder` (main.go line 33). -/
def tcKeyOrder : List String :=
  ["TC_ACT_OK", "TC_ACT_RECLASSIFY", "TC_ACT_SHOT", "TC_ACT_PIPE",
   "TC_ACT_STOLEN", "TC_ACT_QUEUED", "TC_ACT_REPEAT", "TC_ACT_REDIRECT",
   "TC_ACT_TRAP"]

/-- One printed line of the per-tick snapshot: acting verdict name, cumulative
count, and rate per second (main.go line 80). -/
structure Entry where
  name : String
  count : Nat
  rate : ℚ
deriving DecidableEq, Repr

/-- The body of the `for _, action := range tcKeyOrder` loop of
`lookupAndPrintStats` (main.go lines 70-81), as structural recursion over the
remaining actions.  `m` is the kernel counter table (`none` = `Lookup` error,
which is logged and skipped via `continue`); the state threads the `prevValues`
map and accumulates the printed entries in order. -/
def processKeys (m : Nat → Option Nat) (delta : ℚ) (prevValues : String → Nat) :
    List String → (String → Nat) × List Entry
  | [] => (prevValues, [])
  | action :: rest =>
    match m (tcKeys action) with
    | none => processKeys m delta prevValues rest
    | some value =>
      let prev := prevValues action
      let newPrev : String → Nat := fun a => if a = action then value else prevValues a
      let r := processKeys m delta newPrev rest
      (r.1, ⟨action, value, ((u64sub value prev : ℕ) : ℚ) / delta⟩ :: r.2)

/-- Result of one poll tick: the updated `prevValues` map, the updated
`prevTime`, and the snapshot of printed entries. -/
structure PollResult where
  prevValues : String → Nat
  prevTime : ℚ
  snapshot : List Entry

/-- `lookupAndPrintStats` (main.go lines 63-83).  `deltaTime` is the elapsed
wall time in seconds; if it is zero the function returns immediately after the
header (no entries printed, no state change).  Otherwise each action in
`tcKeyOrder` is processed and `*prevTime` is set to `now` at the end. -/
def lookupAndPrintStats (m : Nat → Option Nat) (prevValues : String → Nat)
    (prevTime now : ℚ) : PollResult :=
  let deltaTime := now - prevTime
  if deltaTime = 0 then
    ⟨prevValues, prevTime, []⟩
  else
    let r := processKeys m deltaTime prevValues tcKeyOrder
    ⟨r.1, now, r.2⟩

/-- Kernel program types relevant here.  `ebpf.SchedCLS` and `ebpf.SchedACT`
are the two TC kinds; the others stand for arbitrary non-TC kinds (e.g. the
packet-filter type `SocketFilter`). -/
inductive ProgramType where
  | socketFilter
  | kprobe
  | schedCLS
  | schedACT
  | xdp
  | tracing
deriving DecidableEq, Repr

/-- One BPF instruction, carrying its symbol name; Go's `insn.Symbol()`
returns `""` when the instruction carries no symbol. -/
structure Instruction where
  symbol : String
deriving DecidableEq, Repr

/-- The data `getFuncName` extracts from a `prog.Info()` result: the program
type, the optional BTF ID, and the result of the `info.Instructions()` call. -/
structure ProgramInfo where
  progType : ProgramType
  btfID : Option Nat
  instructionsResult : Except String (List Instruction)

/-- A handle to a running kernel program, exposing the result of the external
`prog.Info()` call. -/
structure Program where
  infoResult : Except String ProgramInfo

/-- The errors `getFuncName` can return (main.go lines 39, 43, 47, 52, 60). -/
inductive FuncNameError where
  | infoFailed (msg : String)
  | notATCProgram
  | noBTFID
  | instructionsFailed (msg : String)
  | noEntryFunction
deriving DecidableEq, Repr

/-- `getFuncName` (main.go lines 36-61): checks the program type against the
two TC kinds, then the presence of a BTF ID, then reads the instruction stream
and returns the symbol of the first instruction whose symbol is non-empty. -/
def getFuncName (prog : Program) : Except FuncNameError String :=
  match prog.infoResult with
  | .error e => .error (.infoFailed e)
  | .ok info =>
    if info.progType ≠ .schedCLS ∧ info.progType ≠ .schedACT then
      .error .notATCProgram
    else if info.btfID.isNone then
      .error .noBTFID
    else
      match info.instructionsResult with
      | .error e => .error (.instructionsFailed e)
      | .ok insns =>
        match insns.find? (fun i => i.symbol ≠ "") with
        | some i => .ok i.symbol
        | none => .error .noEntryFunction

/-- The spec's characterisation of the entry point, stated in its own words
("the name attached to the first instruction carrying a symbol"), used to
compare `getFuncName` against the specification. -/
def firstSymbolCarrying : List Instruction → Option String
  | [] => none
  | i :: rest => if i.symbol ≠ "" then some i.symbol else firstSymbolCarrying rest

/-- External calls made by `main` and the deferred releases, in the order they
appear in the event trace of a run. -/
inductive Event where
  | removeMemlock
  | loadSpec
  | openProg
  | resolveFuncName
  | loadAndAssign
  | attachTracing
  | pollLoop
  | tickerStop
  | closeLink
  | closeObj
  | closeProg
  | signalStop
deriving DecidableEq, Repr

/-- The environment of one run of `main`: the parsed flag value and the
results of each external call, in program order. -/
structure Env where
  tcProgID : Int
  rlimitResult : Except String Unit
  loadSpecResult : Except String Unit
  progOpenResult : Except String Program
  loadAssignResult : Except String Unit
  attachResult : Except String Unit

/-- `main` (main.go lines 85-156) as a trace semantics: the list of external
events performed, paired with the process exit code.  `log.Fatal`/`log.Fatalf`
call `os.Exit(1)`, which terminates the process immediately WITHOUT running
deferred functions, so fatal branches end the trace with exit code 1 and no
close events.  On the normal path the poll loop runs `lookupAndPrintStats`
each tick (per-key lookup errors are logged, never fatal) until the
cancellation signal fires, and the `return` at line 150 runs the deferred
calls in LIFO order: `ticker.Stop`, `tcfexit.Close`, `obj.Close`,
`tcProg.Close`, `stop`, then the process exits with code 0. -/
def mainRun (env : Env) : List Event × Nat :=
  if env.tcProgID = 0 then ([], 1)
  else
    match env.rlimitResult with
    | .error _ => ([.removeMemlock], 1)
    | .ok _ =>
      match env.loadSpecResult with
      | .error _ => ([.removeMemlock, .loadSpec], 1)
      | .ok _ =>
        match env.progOpenResult with
        | .error _ => ([.removeMemlock, .loadSpec, .openProg], 1)
        | .ok prog =>
          match getFuncName prog with
          | .error _ => ([.removeMemlock, .loadSpec, .openProg, .resolveFuncName], 1)
          | .ok _ =>
            match env.loadAssignResult with
            | .error _ =>
              ([.removeMemlock, .loadSpec, .openProg, .resolveFuncName,
                .loadAndAssign], 1)
            | .ok _ =>
              match env.attachResult with
              | .error _ =>
                ([.removeMemlock, .loadSpec, .openProg, .resolveFuncName,
                  .loadAndAssign, .attachTracing], 1)
              | .ok _ =>
                ([.removeMemlock, .loadSpec, .openProg, .resolveFuncName,
                  .loadAndAssign, .attachTracing, .pollLoop, .tickerStop,
                  .closeLink, .closeObj, .closeProg, .signalStop], 0)

/-! ### Lemmas about the poll loop body -/

theorem processKeys_fst_of_not_mem (m : Nat → Option Nat) (delta : ℚ)
    (pv : String → Nat) (l : List String) (a : String) (ha : a ∉ l) :
    (processKeys m delta pv l).1 a = pv a := by
  induction l generalizing pv with
  | nil => rfl
  | cons b rest ih =>
    simp only [List.mem_cons, not_or] at ha
    obtain ⟨hab, harest⟩ := ha
    cases hm : m (tcKeys b) with
    | none => simpa only [processKeys, hm] using ih pv harest
    | some v =>
      simp only [processKeys, hm]
      rw [ih _ harest]
      simp [hab]

theorem processKeys_fst_of_none (m : Nat → Option Nat) (delta : ℚ)
    (pv : String → Nat) (l : List String) (a : String)
    (ha : m (tcKeys a) = none) :
    (processKeys m delta pv l).1 a = pv a := by
  induction l generalizing pv with
  | nil => rfl
  | cons b rest ih =>
    cases hm : m (tcKeys b) with
    | none => simpa only [processKeys, hm] using ih pv
    | some v =>
      have hab : a ≠ b := by
        intro h
        rw [h, hm] at ha
        exact Option.noConfusion ha
      simp only [processKeys, hm]
      rw [ih _]
      simp [hab]

theorem processKeys_fst_of_some (m : Nat → Option Nat) (delta : ℚ)
    (pv : String → Nat) (l : List String) (a : String) (v : Nat)
    (hmem : a ∈ l) (ha : m (tcKeys a) = some v) :
    (processKeys m delta pv l).1 a = v := by
  induction l generalizing pv with
  | nil => exact absurd hmem (List.not_mem_nil a)
  | cons b rest ih =>
    cases hm : m (tcKeys b) with
    | none =>
      have hab : a ≠ b := by
        intro h
        rw [h, hm] at ha
        exact Option.noConfusion ha
      have hrest : a ∈ rest := by
        rcases List.mem_cons.mp hmem with h | h
        · exact absurd h hab
        · exact h
      simpa only [processKeys, hm] using ih pv hrest
    | some w =>
      simp only [processKeys, hm]
      by_cases hrest : a ∈ rest
      · exact ih _ hrest
      · have hab : a = b := by
          rcases List.mem_cons.mp hmem with h | h
          · exact h
          · exact absurd h hrest
        rw [processKeys_fst_of_not_mem m delta _ rest a hrest]
        subst hab
        rw [ha] at hm
        simp [Option.some.injEq] at hm
        simp [hm]

theorem processKeys_names (m : Nat → Option Nat) (delta : ℚ)
    (pv : String → Nat) (l : List String) :
    (processKeys m delta pv l).2.map Entry.name
      = l.filter (fun a => (m (tcKeys a)).isSome) := by
  induction l generalizing pv with
  | nil => rfl
  | cons b rest ih =>
    cases hm : m (tcKeys b) with
    | none => simp [processKeys, hm, List.filter_cons, ih]
    | some v => simp [processKeys, hm, List.filter_cons, ih]

theorem processKeys_entry_mem (m : Nat → Option Nat) (delta : ℚ)
    (pv : String → Nat) (l : List String) (a : String) (v : Nat)
    (hnd : l.Nodup) (hmem : a ∈ l) (ha : m (tcKeys a) = some v) :
    Entry.mk a v (((u64sub v (pv a) : ℕ) : ℚ) / delta)
      ∈ (processKeys m delta pv l).2 := by
  induction l generalizing pv with
  | nil => exact absurd hmem (List.not_mem_nil a)
  | cons b rest ih =>
    have hnd' : rest.Nodup := (List.nodup_cons.mp hnd).2
    cases hm : m (tcKeys b) with
    | none =>
      have hab : a ≠ b := by
        intro h
        rw [h, hm] at ha
        exact Option.noConfusion ha
      have hrest : a ∈ rest := by
        rcases List.mem_cons.mp hmem with h | h
        · exact absurd h hab
        · exact h
      simpa only [processKeys, hm] using ih pv hnd' hrest
    | some w =>
      by_cases hab : a = b
      · subst hab
        rw [ha] at hm
        simp only [Option.some.injEq] at hm
        subst hm
        simp [processKeys, ha]
      · have hrest : a ∈ rest := by
          rcases List.mem_cons.mp hmem with h | h
          · exact absurd h hab
          · exact h
        simp only [processKeys, hm, List.mem_cons]
        right
        have := ih (fun x => if x = b then w else pv x) hnd' hrest
        simpa [hab] using this

theorem tcKeyOrder_nodup : tcKeyOrder.Nodup := by decide

theorem lookupAndPrintStats_of_ne (m : Nat → Option Nat) (pv : String → Nat)
    (pt now : ℚ) (h : now - pt ≠ 0) :
    lookupAndPrintStats m pv pt now
      = ⟨(processKeys m (now - pt) pv tcKeyOrder).1, now,
         (processKeys m (now - pt) pv tcKeyOrder).2⟩ := by
  simp [lookupAndPrintStats, h]

theorem u64sub_of_le (v p : Nat) (hle : p ≤ v) (hv : v < U64MOD) :
    u64sub v p = v - p := by
  unfold u64sub
  have h1 : v + U64MOD - p = (v - p) + U64MOD := by omega
  rw [h1, Nat.add_mod_right]
  exact Nat.mod_eq_of_lt (by omega)

theorem u64sub_int_emod (v p : Nat) (hp : p < U64MOD) :
    (u64sub v p : ℤ) = ((v : ℤ) - (p : ℤ)) % (U64MOD : ℤ) := by
  unfold u64sub U64MOD
  have hU : (2 : ℕ) ^ 64 = 18446744073709551616 := by norm_num
  rw [hU]
  have hp' : p < 18446744073709551616 := by
    unfold U64MOD at hp
    omega
  omega

/-! ### Lemmas about the symbol resolver -/

theorem find?_symbol_eq (insns : List Instruction) :
    (insns.find? (fun i => i.symbol ≠ "")).map Instruction.symbol
      = firstSymbolCarrying insns := by
  induction insns with
  | nil => rfl
  | cons i rest ih =>
    by_cases h : i.symbol = ""
    · simpa [List.find?_cons, firstSymbolCarrying, h] using ih
    · simp [List.find?_cons, firstSymbolCarrying, h, ih]

theorem firstSymbolCarrying_eq_none_iff (insns : List Instruction) :
    firstSymbolCarrying insns = none ↔ ∀ i ∈ insns, i.symbol = "" := by
  induction insns with
  | nil => simp [firstSymbolCarrying]
  | cons i rest ih =>
    by_cases h : i.symbol = "" <;> simp [firstSymbolCarrying, h, ih]

theorem getFuncName_nonTC (p : Program) (info : ProgramInfo)
    (hinfo : p.infoResult = .ok info)
    (h1 : info.progType ≠ .schedCLS) (h2 : info.progType ≠ .schedACT) :
    getFuncName p = .error .notATCProgram := by
  simp [getFuncName, hinfo, h1, h2]

/-! ### Claim C4: zero elapsed time -/

/-- C4 (counterexample): the claim says that on a tick with zero elapsed time
the emitted snapshot is identical to the previous snapshot.  In the code the
function returns before printing any entry, so the tick's snapshot is empty
while the previous tick's snapshot had nine entries: at counter table
`fun _ => some 5`, initial state `(fun _ => 0, t = 0)`, the tick at `t = 1`
emits nine entries, and the next tick, again at `t = 1` (zero elapsed), emits
none — the two snapshots differ. -/
theorem tick_zero_elapsed_not_previous_snapshot :
    (lookupAndPrintStats (fun _ => some 5)
        (lookupAndPrintStats (fun _ => some 5) (fun _ => 0) 0 1).prevValues
        (lookupAndPrintStats (fun _ => some 5) (fun _ => 0) 0 1).prevTime
        1).snapshot
      ≠ (lookupAndPrintStats (fun _ => some 5) (fun _ => 0) 0 1).snapshot := by
  have hs1 : (lookupAndPrintStats (fun _ => some 5) (fun _ => 0) 0 1).snapshot.length = 9 := by
    rw [lookupAndPrintStats_of_ne _ _ _ _ (by norm_num)]
    have h := congrArg List.length
      (processKeys_names (fun _ => some 5) ((1 : ℚ) - 0) (fun _ => 0) tcKeyOrder)
    rw [List.length_map] at h
    simpa [tcKeyOrder] using h
  have h1 : (lookupAndPrintStats (fun _ => some 5) (fun _ => 0) 0 1).prevTime = 1 := by
    rw [lookupAndPrintStats_of_ne _ _ _ _ (by norm_num)]
  rw [h1]
  have hs2 : (lookupAndPrintStats (fun _ => some 5)
      (lookupAndPrintStats (fun _ => some 5) (fun _ => 0) 0 1).prevValues 1 1).snapshot
        = [] := by
    simp [lookupAndPrintStats]
  rw [hs2]
  intro h
  rw [← h] at hs1
  simp at hs1

/-- C4 (amended): on a tick where the elapsed wall time is exactly zero, the
sampling operation skips the rate update entirely, leaves all stored previous
counts and the previous timestamp unchanged, and emits an empty snapshot (no
per-key entries) for that tick. -/
theorem zero_elapsed_skips_update (m : Nat → Option Nat) (pv : String → Nat)
    (pt now : ℚ) (h : now - pt = 0) :
    lookupAndPrintStats m pv pt now = ⟨pv, pt, []⟩ := by
  simp [lookupAndPrintStats, h]

/-- C4 (witness): the amended theorem applied at a concrete tick with
`now = prevTime = 1`. -/
theorem zero_elapsed_skips_update_witness :
    ((1 : ℚ) - 1 = 0) ∧
      lookupAndPrintStats (fun _ => some 7) (fun _ => 3) 1 1
        = ⟨fun _ => 3, 1, []⟩ :=
  ⟨by norm_num, zero_elapsed_skips_update (fun _ => some 7) (fun _ => 3) 1 1 (by norm_num)⟩

/-! ### Claim C6: first symbol-carrying instruction -/

/-- C6: for a fixed instruction stream of a TC-kind program carrying type
metadata, `getFuncName` deterministically returns the name attached to the
first instruction in stream order that carries a symbol, and fails with the
no-entry-point error exactly when no instruction in the stream carries a
symbol (`insn.Symbol() = ""` throughout). -/
theorem getFuncName_first_symbol (p : Program) (info : ProgramInfo)
    (insns : List Instruction)
    (hinfo : p.infoResult = .ok info)
    (htc : info.progType = .schedCLS ∨ info.progType = .schedACT)
    (hbtf : info.btfID.isSome)
    (hins : info.instructionsResult = .ok insns) :
    getFuncName p = (match firstSymbolCarrying insns with
      | some s => Except.ok s
      | none => Except.error FuncNameError.noEntryFunction) ∧
    (firstSymbolCarrying insns = none ↔ ∀ i ∈ insns, i.symbol = "") := by
  have hcond : ¬(info.progType ≠ .schedCLS ∧ info.progType ≠ .schedACT) := by
    rcases htc with h | h <;> simp [h]
  have hbtf' : info.btfID.isNone = false := by
    cases hb : info.btfID
    · rw [hb] at hbtf
      exact absurd hbtf (by simp)
    · simp
  refine ⟨?_, firstSymbolCarrying_eq_none_iff insns⟩
  rw [← find?_symbol_eq insns]
  simp only [getFuncName, hinfo, hcond, if_false, hbtf', Bool.false_eq_true, hins]
  cases hfind : insns.find? (fun i => i.symbol ≠ "") with
  | none => simp
  | some i => simp

/-- C6 (witness): the theorem applied to a concrete classifier program whose
stream is an unlabelled instruction followed by one carrying `"cls_foo"`. -/
theorem getFuncName_first_symbol_witness :
    getFuncName ⟨.ok ⟨.schedCLS, some 1, .ok [⟨""⟩, ⟨"cls_foo"⟩]⟩⟩
        = (match firstSymbolCarrying [⟨""⟩, ⟨"cls_foo"⟩] with
          | some s => Except.ok s
          | none => Except.error FuncNameError.noEntryFunction) ∧
      (firstSymbolCarrying [⟨""⟩, ⟨"cls_foo"⟩] = none ↔
        ∀ i ∈ ([⟨""⟩, ⟨"cls_foo"⟩] : List Instruction), i.symbol = "") :=
  getFuncName_first_symbol ⟨.ok ⟨.schedCLS, some 1, .ok [⟨""⟩, ⟨"cls_foo"⟩]⟩⟩
    ⟨.schedCLS, some 1, .ok [⟨""⟩, ⟨"cls_foo"⟩]⟩ [⟨""⟩, ⟨"cls_foo"⟩]
    rfl (Or.inl rfl) rfl rfl

/-! ### Claim C9: the program-kind check comes first -/

/-- C9: in `getFuncName` the program-kind check precedes the BTF check and the
instruction scan: for any program whose kind is not a TC kind, the reported
error is the not-a-TC-program error, whatever the BTF ID and the instruction
stream are. -/
theorem nonTC_error_precedence (p : Program) (info : ProgramInfo)
    (hinfo : p.infoResult = .ok info)
    (h1 : info.progType ≠ .schedCLS) (h2 : info.progType ≠ .schedACT) :
    getFuncName p = .error .notATCProgram :=
  getFuncName_nonTC p info hinfo h1 h2

/-- C9 (witness): a concrete XDP-typed program that also lacks a BTF ID and
has no symbol-carrying instruction still reports the not-a-TC-program error. -/
theorem nonTC_error_precedence_witness :
    getFuncName ⟨.ok ⟨.xdp, none, .ok [⟨""⟩]⟩⟩ = .error .notATCProgram :=
  nonTC_error_precedence ⟨.ok ⟨.xdp, none, .ok [⟨""⟩]⟩⟩ ⟨.xdp, none, .ok [⟨""⟩]⟩
    rfl (by decide) (by decide)

/-! ### Claim C1: displayed rate formula -/

/-- C1: on a tick with strictly positive elapsed time, for every key whose
counter read succeeds the displayed rate equals
`(currentCount - previousCount) / elapsedSeconds`, and — the counts being
non-decreasing (`previousCount ≤ currentCount`, as the kernel counters are
cumulative `uint64` values) — the rate is non-negative. -/
theorem displayed_rate_correct (m : Nat → Option Nat) (pv : String → Nat)
    (pt now : ℚ) (a : String) (v : Nat)
    (hdelta : 0 < now - pt) (ha : a ∈ tcKeyOrder)
    (hm : m (tcKeys a) = some v) (hmono : pv a ≤ v) (hv : v < U64MOD) :
    Entry.mk a v (((v : ℚ) - (pv a : ℚ)) / (now - pt))
        ∈ (lookupAndPrintStats m pv pt now).snapshot ∧
      0 ≤ ((v : ℚ) - (pv a : ℚ)) / (now - pt) := by
  have hne : now - pt ≠ 0 := ne_of_gt hdelta
  have hcast : ((u64sub v (pv a) : ℕ) : ℚ) = (v : ℚ) - (pv a : ℚ) := by
    rw [u64sub_of_le v (pv a) hmono hv]
    exact Nat.cast_sub hmono
  constructor
  · rw [lookupAndPrintStats_of_ne m pv pt now hne]
    have hmem := processKeys_entry_mem m (now - pt) pv tcKeyOrder a v
      tcKeyOrder_nodup ha hm
    rw [hcast] at hmem
    exact hmem
  · apply div_nonneg
    · rw [sub_nonneg]
      exact_mod_cast hmono
    · exact le_of_lt hdelta

/-- C1 (witness): the theorem applied to a concrete tick: counter 0 read as 5,
previous count 0, elapsed time 1 s, displayed rate (5 - 0) / 1. -/
theorem displayed_rate_correct_witness :
    Entry.mk "TC_ACT_OK" 5 (((5 : ℚ) - ((0 : Nat) : ℚ)) / ((1 : ℚ) - 0))
        ∈ (lookupAndPrintStats (fun k => if k = 0 then some 5 else none)
            (fun _ => 0) 0 1).snapshot ∧
      0 ≤ ((5 : ℚ) - ((0 : Nat) : ℚ)) / ((1 : ℚ) - 0) :=
  displayed_rate_correct (fun k => if k = 0 then some 5 else none) (fun _ => 0)
    0 1 "TC_ACT_OK" 5 (by norm_num) (by decide) (by decide) (by decide)
    (by norm_num [U64MOD])

/-! ### Claim C10: unsigned wrap-around of the count difference -/

/-- C10: counts are `uint64` values and the per-tick difference is unsigned:
on a tick with positive elapsed time where the current count is strictly below
the stored previous count, the displayed rate equals
`((currentCount - previousCount) mod 2^64) / elapsedSeconds` — a positive
value — and is never negative. -/
theorem rate_wraps_on_decrease (m : Nat → Option Nat) (pv : String → Nat)
    (pt now : ℚ) (a : String) (v : Nat)
    (hdelta : 0 < now - pt) (ha : a ∈ tcKeyOrder)
    (hm : m (tcKeys a) = some v) (hlt : v < pv a) (hp : pv a < U64MOD) :
    Entry.mk a v (((((v : ℤ) - (pv a : ℤ)) % (U64MOD : ℤ)).toNat : ℚ) / (now - pt))
        ∈ (lookupAndPrintStats m pv pt now).snapshot ∧
      0 < ((((v : ℤ) - (pv a : ℤ)) % (U64MOD : ℤ)).toNat : ℚ) / (now - pt) := by
  have hne : now - pt ≠ 0 := ne_of_gt hdelta
  have hint : (u64sub v (pv a) : ℤ) = ((v : ℤ) - (pv a : ℤ)) % (U64MOD : ℤ) :=
    u64sub_int_emod v (pv a) hp
  have hto : u64sub v (pv a) = (((v : ℤ) - (pv a : ℤ)) % (U64MOD : ℤ)).toNat := by
    rw [← hint]
    exact (Int.toNat_ofNat (u64sub v (pv a))).symm
  have hpos : 0 < u64sub v (pv a) := by
    unfold u64sub U64MOD
    unfold U64MOD at hp
    have h1 : v + 2 ^ 64 - pv a < 2 ^ 64 := by omega
    rw [Nat.mod_eq_of_lt h1]
    omega
  constructor
  · rw [lookupAndPrintStats_of_ne m pv pt now hne]
    have hmem := processKeys_entry_mem m (now - pt) pv tcKeyOrder a v
      tcKeyOrder_nodup ha hm
    rw [hto] at hmem
    exact hmem
  · apply div_pos
    · rw [← hto]
      exact_mod_cast hpos
    · exact hdelta

/-- C10 (witness): counter 0 drops from a stored previous count of 5 to a
current count of 1 over 1 s; the displayed rate is `(2^64 - 4) / 1`. -/
theorem rate_wraps_on_decrease_witness :
    Entry.mk "TC_ACT_OK" 1 (((((1 : ℤ) - ((5 : Nat) : ℤ)) % (U64MOD : ℤ)).toNat : ℚ) / ((1 : ℚ) - 0))
        ∈ (lookupAndPrintStats (fun k => if k = 0 then some 1 else none)
            (fun _ => 5) 0 1).snapshot ∧
      0 < (((((1 : ℤ) - ((5 : Nat) : ℤ)) % (U64MOD : ℤ)).toNat : ℚ) / ((1 : ℚ) - 0)) :=
  rate_wraps_on_decrease (fun k => if k = 0 then some 1 else none) (fun _ => 5)
    0 1 "TC_ACT_OK" 1 (by norm_num) (by decide) (by decide) (by decide)
    (by norm_num [U64MOD])

/-! ### Claim C3: per-key lookup failures -/

/-- C3 (counterexample): the claim says a key whose lookup fails keeps its
previous displayed count and rate in that tick's snapshot.  In the code the
`continue` skips the `fmt.Printf` entirely, so the key's entry is absent from
the snapshot: with the lookup for key 7 ("TC_ACT_REDIRECT") failing and all
others reading 5, the snapshot lists the other eight names and contains no
entry named "TC_ACT_REDIRECT" at all. -/
theorem failed_key_entry_omitted :
    ((lookupAndPrintStats (fun k => if k = 7 then none else some 5)
        (fun _ => 0) 0 1).snapshot.map Entry.name
      = ["TC_ACT_OK", "TC_ACT_RECLASSIFY", "TC_ACT_SHOT", "TC_ACT_PIPE",
         "TC_ACT_STOLEN", "TC_ACT_QUEUED", "TC_ACT_REPEAT", "TC_ACT_TRAP"]) ∧
    ∀ e ∈ (lookupAndPrintStats (fun k => if k = 7 then none else some 5)
        (fun _ => 0) 0 1).snapshot, e.name ≠ "TC_ACT_REDIRECT" := by
  have h : (lookupAndPrintStats (fun k => if k = 7 then none else some 5)
      (fun _ => 0) 0 1).snapshot.map Entry.name
        = ["TC_ACT_OK", "TC_ACT_RECLASSIFY", "TC_ACT_SHOT", "TC_ACT_PIPE",
           "TC_ACT_STOLEN", "TC_ACT_QUEUED", "TC_ACT_REPEAT", "TC_ACT_TRAP"] := by
    rw [lookupAndPrintStats_of_ne _ _ _ _ (by norm_num)]
    rw [processKeys_names]
    decide
  refine ⟨h, ?_⟩
  intro e he heq
  have hmem : e.name ∈ (lookupAndPrintStats (fun k => if k = 7 then none else some 5)
      (fun _ => 0) 0 1).snapshot.map Entry.name :=
    List.mem_map_of_mem Entry.name he
  rw [h, heq] at hmem
  exact absurd hmem (by decide)

/-- C3 (amended): when, on a tick with nonzero elapsed time, the lookup for
one key fails, the failure is non-fatal: the affected key's stored previous
count is unchanged, its entry is omitted from that tick's snapshot, and every
successfully-read key's entry appears with its updated count and rate and has
its stored previous count updated; the poll loop continues to the next tick. -/
theorem lookup_failure_nonfatal (m : Nat → Option Nat) (pv : String → Nat)
    (pt now : ℚ) (a : String)
    (hdelta : now - pt ≠ 0) (_ha : a ∈ tcKeyOrder) (hm : m (tcKeys a) = none) :
    (lookupAndPrintStats m pv pt now).prevValues a = pv a ∧
    (∀ e ∈ (lookupAndPrintStats m pv pt now).snapshot, e.name ≠ a) ∧
    (∀ b w, b ∈ tcKeyOrder → m (tcKeys b) = some w →
      Entry.mk b w (((u64sub w (pv b) : ℕ) : ℚ) / (now - pt))
          ∈ (lookupAndPrintStats m pv pt now).snapshot ∧
        (lookupAndPrintStats m pv pt now).prevValues b = w) := by
  rw [lookupAndPrintStats_of_ne m pv pt now hdelta]
  refine ⟨processKeys_fst_of_none m (now - pt) pv tcKeyOrder a hm, ?_, ?_⟩
  · intro e he heq
    have hmem : e.name ∈ (processKeys m (now - pt) pv tcKeyOrder).2.map Entry.name :=
      List.mem_map_of_mem Entry.name he
    rw [processKeys_names, heq] at hmem
    have hp := List.of_mem_filter hmem
    rw [hm] at hp
    simp at hp
  · intro b w hb hw
    exact ⟨processKeys_entry_mem m (now - pt) pv tcKeyOrder b w tcKeyOrder_nodup hb hw,
      processKeys_fst_of_some m (now - pt) pv tcKeyOrder b w hb hw⟩

/-- C3 (witness): the amended theorem at a concrete tick where key 7 fails
and the others read 5. -/
theorem lookup_failure_nonfatal_witness :
    (lookupAndPrintStats (fun k => if k = 7 then none else some 5)
        (fun _ => 0) 0 1).prevValues "TC_ACT_REDIRECT" = (fun _ => 0) "TC_ACT_REDIRECT" ∧
    (∀ e ∈ (lookupAndPrintStats (fun k => if k = 7 then none else some 5)
        (fun _ => 0) 0 1).snapshot, e.name ≠ "TC_ACT_REDIRECT") ∧
    (∀ b w, b ∈ tcKeyOrder →
      (fun k => if k = 7 then none else some 5) (tcKeys b) = some w →
      Entry.mk b w (((u64sub w ((fun _ => 0) b) : ℕ) : ℚ) / ((1 : ℚ) - 0))
          ∈ (lookupAndPrintStats (fun k => if k = 7 then none else some 5)
              (fun _ => 0) 0 1).snapshot ∧
        (lookupAndPrintStats (fun k => if k = 7 then none else some 5)
            (fun _ => 0) 0 1).prevValues b = w) :=
  lookup_failure_nonfatal (fun k => if k = 7 then none else some 5) (fun _ => 0)
    0 1 "TC_ACT_REDIRECT" (by norm_num) (by decide) (by decide)

/-! ### Claim C5: which stored state is updated -/

/-- C5 (counterexample): the claim says that a key whose read failed has its
stored previous timestamp left unchanged.  The stored timestamp is a single
shared value, written unconditionally at the end of every tick with nonzero
elapsed time: on a tick from `prevTime = 0` to `now = 1` where every key's
lookup fails, the stored timestamp still becomes 1. -/
theorem prev_timestamp_updated_despite_failures :
    (∀ a ∈ tcKeyOrder, (fun _ => (none : Option Nat)) (tcKeys a) = none) ∧
    (lookupAndPrintStats (fun _ => none) (fun _ => 0) 0 1).prevTime = 1 ∧
    (1 : ℚ) ≠ 0 := by
  refine ⟨by decide, ?_, by norm_num⟩
  rw [lookupAndPrintStats_of_ne _ _ _ _ (by norm_num)]

/-- C5 (amended): on a tick with nonzero elapsed time, the stored previous
count is updated exactly for the keys whose counter read succeeded — a key
whose read failed, and any key outside the canonical order, keeps its stored
previous count — while the single shared previous timestamp is updated to the
current time unconditionally, regardless of per-key read failures. -/
theorem prev_state_updates (m : Nat → Option Nat) (pv : String → Nat)
    (pt now : ℚ) (hdelta : now - pt ≠ 0) :
    (lookupAndPrintStats m pv pt now).prevTime = now ∧
    (∀ a, m (tcKeys a) = none →
      (lookupAndPrintStats m pv pt now).prevValues a = pv a) ∧
    (∀ a w, a ∈ tcKeyOrder → m (tcKeys a) = some w →
      (lookupAndPrintStats m pv pt now).prevValues a = w) ∧
    (∀ a, a ∉ tcKeyOrder →
      (lookupAndPrintStats m pv pt now).prevValues a = pv a) := by
  rw [lookupAndPrintStats_of_ne m pv pt now hdelta]
  exact ⟨rfl,
    fun a ha => processKeys_fst_of_none m (now - pt) pv tcKeyOrder a ha,
    fun a w ha hw => processKeys_fst_of_some m (now - pt) pv tcKeyOrder a w ha hw,
    fun a ha => processKeys_fst_of_not_mem m (now - pt) pv tcKeyOrder a ha⟩

/-- C5 (witness): the amended theorem at a concrete tick (counter 0 reads 4,
all other lookups fail, elapsed time 1). -/
theorem prev_state_updates_witness :
    ((1 : ℚ) - 0 ≠ 0) ∧
    ((lookupAndPrintStats (fun k => if k = 0 then some 4 else none)
        (fun _ => 2) 0 1).prevTime = 1 ∧
    (∀ a, (fun k => if k = 0 then some 4 else none) (tcKeys a) = none →
      (lookupAndPrintStats (fun k => if k = 0 then some 4 else none)
          (fun _ => 2) 0 1).prevValues a = (fun _ => 2) a) ∧
    (∀ a w, a ∈ tcKeyOrder →
      (fun k => if k = 0 then some 4 else none) (tcKeys a) = some w →
      (lookupAndPrintStats (fun k => if k = 0 then some 4 else none)
          (fun _ => 2) 0 1).prevValues a = w) ∧
    (∀ a, a ∉ tcKeyOrder →
      (lookupAndPrintStats (fun k => if k = 0 then some 4 else none)
          (fun _ => 2) 0 1).prevValues a = (fun _ => 2) a)) :=
  ⟨by norm_num,
    prev_state_updates (fun k => if k = 0 then some 4 else none) (fun _ => 2)
      0 1 (by norm_num)⟩

/-! ### Claim C8: canonical snapshot shape -/

/-- C8 (counterexample): the claim says every emitted snapshot has exactly
nine entries.  When the lookup for key 2 fails (all others reading 5) on a
tick with elapsed time 1, the emitted snapshot has eight entries. -/
theorem snapshot_not_always_nine :
    (lookupAndPrintStats (fun k => if k = 2 then none else some 5)
        (fun _ => 0) 0 1).snapshot.length = 8 ∧ (8 : Nat) ≠ 9 := by
  refine ⟨?_, by norm_num⟩
  rw [lookupAndPrintStats_of_ne _ _ _ _ (by norm_num)]
  have h := congrArg List.length
    (processKeys_names (fun k => if k = 2 then none else some 5)
      ((1 : ℚ) - 0) (fun _ => 0) tcKeyOrder)
  rw [List.length_map] at h
  rw [h]
  decide

/-- C8 (amended): every emitted snapshot is an ordered subsequence of the
canonical nine-entry list (accept, reclassify, drop, pipe, stolen, queued,
repeat, redirect, trap, with numeric keys 0 through 8): the display order
always equals the canonical list order, independent of the storage order of
the key table (iteration is over `tcKeyOrder`, never over the map), and the
snapshot has exactly the nine canonical entries whenever every lookup
succeeds. -/
theorem snapshot_canonical_order (m : Nat → Option Nat) (pv : String → Nat)
    (pt now : ℚ) (hdelta : now - pt ≠ 0) :
    ((lookupAndPrintStats m pv pt now).snapshot.map Entry.name).Sublist tcKeyOrder ∧
    tcKeyOrder.length = 9 ∧
    tcKeyOrder.map tcKeys = [0, 1, 2, 3, 4, 5, 6, 7, 8] ∧
    ((∀ a ∈ tcKeyOrder, (m (tcKeys a)).isSome) →
      (lookupAndPrintStats m pv pt now).snapshot.map Entry.name = tcKeyOrder) := by
  rw [lookupAndPrintStats_of_ne m pv pt now hdelta]
  refine ⟨?_, by decide, by decide, ?_⟩
  · rw [processKeys_names]
    exact List.filter_sublist tcKeyOrder
  · intro hall
    rw [processKeys_names]
    exact List.filter_eq_self.mpr (fun a ha => by simpa using hall a ha)

/-- C8 (witness): at a tick where every lookup succeeds (all counters read 3),
the snapshot names are exactly the canonical order. -/
theorem snapshot_canonical_order_witness :
    ((1 : ℚ) - 0 ≠ 0) ∧
    (∀ a ∈ tcKeyOrder, ((fun _ => (some 3 : Option Nat)) (tcKeys a)).isSome) ∧
    (lookupAndPrintStats (fun _ => some 3) (fun _ => 0) 0 1).snapshot.map Entry.name
      = tcKeyOrder := by
  refine ⟨by norm_num, by decide, ?_⟩
  exact (snapshot_canonical_order (fun _ => some 3) (fun _ => 0) 0 1
    (by norm_num)).2.2.2 (by decide)

/-! ### Claim C7: non-TC target is fatal before load/attach -/

/-- C7: if the opened target program's kind is neither `SchedCLS` nor
`SchedACT`, symbol resolution fails with the not-a-TC-program error, `main`
performs neither the probe-object load (`LoadAndAssign`) nor the attach
(`AttachTracing`), and the process exits nonzero (exit code 1). -/
theorem nonTC_fatal_before_load_attach (env : Env) (prog : Program)
    (info : ProgramInfo)
    (hid : env.tcProgID ≠ 0)
    (hr : env.rlimitResult = .ok ())
    (hl : env.loadSpecResult = .ok ())
    (hp : env.progOpenResult = .ok prog)
    (hinfo : prog.infoResult = .ok info)
    (h1 : info.progType ≠ .schedCLS) (h2 : info.progType ≠ .schedACT) :
    getFuncName prog = .error .notATCProgram ∧
    (mainRun env).2 = 1 ∧
    Event.loadAndAssign ∉ (mainRun env).1 ∧
    Event.attachTracing ∉ (mainRun env).1 := by
  have hg := getFuncName_nonTC prog info hinfo h1 h2
  have hrun : mainRun env
      = ([.removeMemlock, .loadSpec, .openProg, .resolveFuncName], 1) := by
    simp [mainRun, hid, hr, hl, hp, hg]
  refine ⟨hg, by rw [hrun], ?_, ?_⟩
  · rw [hrun]
    decide
  · rw [hrun]
    decide

/-- C7 (witness): a concrete run whose target (id 7) opens as a
socket-filter-typed program: resolution reports not-a-TC-program, no
load/attach event appears, and the exit code is 1. -/
theorem nonTC_fatal_before_load_attach_witness :
    getFuncName ⟨.ok ⟨.socketFilter, some 1, .ok [⟨"f"⟩]⟩⟩
        = .error .notATCProgram ∧
    (mainRun ⟨7, .ok (), .ok (),
        .ok ⟨.ok ⟨.socketFilter, some 1, .ok [⟨"f"⟩]⟩⟩, .ok (), .ok ()⟩).2 = 1 ∧
    Event.loadAndAssign ∉ (mainRun ⟨7, .ok (), .ok (),
        .ok ⟨.ok ⟨.socketFilter, some 1, .ok [⟨"f"⟩]⟩⟩, .ok (), .ok ()⟩).1 ∧
    Event.attachTracing ∉ (mainRun ⟨7, .ok (), .ok (),
        .ok ⟨.ok ⟨.socketFilter, some 1, .ok [⟨"f"⟩]⟩⟩, .ok (), .ok ()⟩).1 :=
  nonTC_fatal_before_load_attach
    ⟨7, .ok (), .ok (), .ok ⟨.ok ⟨.socketFilter, some 1, .ok [⟨"f"⟩]⟩⟩, .ok (), .ok ()⟩
    ⟨.ok ⟨.socketFilter, some 1, .ok [⟨"f"⟩]⟩⟩
    ⟨.socketFilter, some 1, .ok [⟨"f"⟩]⟩
    (by decide) rfl rfl rfl rfl (by decide) (by decide)

/-! ### Claim C2: resource release on exit paths -/

/-- C2 (counterexample): the claim says the probe-attachment release and the
target-program handle release run on every exit path, including fatal errors
during startup.  `log.Fatalf` calls `os.Exit(1)`, which skips deferred
functions: in a run whose target (id 9) opens as a kprobe-typed program, the
process exits with code 1 and neither `tcProg.Close` nor `tcfexit.Close`
appears in the trace. -/
theorem fatal_skips_deferred_closes :
    (mainRun ⟨9, .ok (), .ok (),
        .ok ⟨.ok ⟨.kprobe, some 1, .ok [⟨"f"⟩]⟩⟩, .ok (), .ok ()⟩).2 = 1 ∧
    Event.closeProg ∉ (mainRun ⟨9, .ok (), .ok (),
        .ok ⟨.ok ⟨.kprobe, some 1, .ok [⟨"f"⟩]⟩⟩, .ok (), .ok ()⟩).1 ∧
    Event.closeLink ∉ (mainRun ⟨9, .ok (), .ok (),
        .ok ⟨.ok ⟨.kprobe, some 1, .ok [⟨"f"⟩]⟩⟩, .ok (), .ok ()⟩).1 := by
  decide

/-- C2 (amended): on the normal-cancellation path (all startup calls succeed,
the loop exits via the cancellation signal) the run exits with code 0 and
releases the ticker, the probe link, the loaded object, the target-program
handle and the signal registration exactly once each; on every fatal path the
run exits with code 1 via `log.Fatal`/`os.Exit`, which skips the deferred
releases, so no release is performed (the kernel reclaims the file
descriptors on process exit).  There is no fatal path inside the poll loop:
per-key lookup errors are logged and never terminate it. -/
theorem mainRun_release_paths (env : Env) :
    ((mainRun env).2 = 0 ∧
      (mainRun env).1.count Event.tickerStop = 1 ∧
      (mainRun env).1.count Event.closeLink = 1 ∧
      (mainRun env).1.count Event.closeObj = 1 ∧
      (mainRun env).1.count Event.closeProg = 1 ∧
      (mainRun env).1.count Event.signalStop = 1) ∨
    ((mainRun env).2 = 1 ∧
      Event.closeLink ∉ (mainRun env).1 ∧
      Event.closeObj ∉ (mainRun env).1 ∧
      Event.closeProg ∉ (mainRun env).1) := by
  obtain ⟨id, r, ls, po, la, att⟩ := env
  by_cases hid : id = 0
  · right
    simp [mainRun, hid]
  · rcases r with e | u1
    · right
      simp [mainRun, hid]
    · rcases ls with e | u2
      · right
        simp [mainRun, hid]
      · rcases po with e | prog
        · right
          simp [mainRun, hid]
        · cases hg : getFuncName prog with
          | error e2 =>
            right
            simp [mainRun, hid, hg]
          | ok s =>
            rcases la with e | u3
            · right
              simp [mainRun, hid, hg]
            · rcases att with e | u4
              · right
                simp [mainRun, hid, hg]
              · left
                simp [mainRun, hid, hg, List.count_cons, List.count_nil]

end TCMonitor
